import Mathlib

/-
Verification of the DAN guesser (`dan copy/dan_guesser.py`).

This file gives a shallow embedding, in Lean 4, of the parts of the program
that the specification talks about: the deep-averaging encoder
(`DanModel.average`, `DanModel.forward`, `nn.Embedding(..., padding_idx=0)`),
batch assembly (`Example.longest_example_length`,
`DanGuesser.batchify_examples_only`, `DanGuesser.batchify_with_contrastive`),
the answer index and data filtering (`QuestionData.set_data`), the
representation store and its nearest-neighbour index (`QuestionData.get_nearest`,
`QuestionData.get_batch_nearest`, `QuestionData.refresh_index`), the training
loss for ranking mode (`DanGuesser.batch_step` with `MarginRankingLoss` over
`torch.pairwise_distance`), evaluation (`number_errors`, `evaluate`) and
persistence (`DanGuesser.save` / `DanGuesser.load` / `DanGuesser.__call__`).

Tensors of floats are modelled as lists of rationals (real-valued semantics,
no floating-point rounding); the Euclidean distance of the ranking loss is
modelled over ℝ.  Fallible Python code (assertions, `NameError`,
`ZeroDivisionError`, attribute errors) is modelled with `Except`/`Option`.
-/

namespace Dan

/-- Model of a 1-D float tensor (one vector). -/
abbrev Vec := List ℚ

/-- Binary maximum on the rationals, written with an explicit conditional (the
same function as `max`, `max_def`). -/
def qmax (a b : ℚ) : ℚ := if a ≤ b then b else a

/-- Binary minimum on the rationals, written with an explicit conditional (the
same function as `min`, `min_def`). -/
def qmin (a b : ℚ) : ℚ := if a ≤ b then a else b

/-- Elementwise sum of two vectors (tensor `+`). -/
def vadd (x y : Vec) : Vec := List.zipWith (· + ·) x y

/-- Sum of a list of `d`-dimensional vectors: `torch.sum(text_embeddings, dim=1)`
restricted to a single batch row. -/
def sumVecs (d : ℕ) (vs : List Vec) : Vec := vs.foldr vadd (List.replicate d 0)

/-- Lookup of a batch row of token ids in the embedding weight table:
`self.embeddings(input_text)` for one row.  `nn.Embedding` indexes its weight
matrix by the token id. -/
def embedLookup (d : ℕ) (table : List Vec) (ids : List ℕ) : List Vec :=
  ids.map (fun i => table.getD i (List.replicate d 0))

/-- One row of `DanModel.average`: sum the embedded vectors of the row along the
sequence dimension and divide by the length clamped from below by one
(`torch.clamp(lengths, min=1.0)`). -/
def averageRow (d : ℕ) (seq : List Vec) (len : ℕ) : Vec :=
  (sumVecs d seq).map (fun x => x / qmax (len : ℚ) 1)

/-- `DanModel.average`: given a batch of per-token embeddings and the tensor of
true lengths, produce the batch of averaged vectors. -/
def average (d : ℕ) (text_embeddings : List (List Vec)) (text_len : List ℕ) : List Vec :=
  List.zipWith (averageRow d) text_embeddings text_len

/-- Effect of `padding_idx=0` at construction of
`nn.Embedding(self.vocab_size, self.emb_dim, padding_idx=0)`: the weight row at
index 0 is set to the zero vector. -/
def padEmbeddingInit (d : ℕ) (weight : List Vec) : List Vec :=
  weight.set 0 (List.replicate d 0)

/-- Effect of `padding_idx=0` during backpropagation: the gradient of the
embedding weight at row 0 is fixed at zero, so that row never receives updates. -/
def padMaskGrad (d : ℕ) (grad : List Vec) : List Vec :=
  grad.set 0 (List.replicate d 0)

/-- One `torch.optim.SGD` update of the embedding weight matrix with plain
learning rate `lr` (the optimizer `run_epoch` constructs): `w ← w - lr * g`. -/
def sgdStep (lr : ℚ) (weight grad : List Vec) : List Vec :=
  List.zipWith (fun w g => List.zipWith (fun a b => a - lr * b) w g) weight grad

/-- Dot product of two vectors. -/
def dot (x y : Vec) : ℚ := (List.zipWith (· * ·) x y).sum

/-- Application of a weight matrix (list of rows) to a vector, as in
`nn.Linear`. -/
def matVec (w : List Vec) (x : Vec) : Vec := w.map (fun row => dot row x)

/-- One `nn.Linear` layer: `W x + b`. -/
def affine (w : List Vec) (b : Vec) (x : Vec) : Vec := vadd (matVec w x) b

/-- The `nn.ReLU()` activation, elementwise `max(0, x)`. -/
def relu (x : Vec) : Vec := x.map (fun a => qmax a 0)

/-- The two loss criteria the model dispatches on
(`type(self.criterion).__name__`). -/
inductive Criterion
  | marginRankingLoss
  | crossEntropyLoss
deriving DecidableEq

/-- State of a `DanModel`: configuration plus the named parameter tensors
(`embeddings.weight`, `linear1.weight/bias`, `linear2.weight/bias`). -/
structure Model where
  criterion : Criterion
  vocab_size : ℕ
  emb_dim : ℕ
  n_hidden_units : ℕ
  nn_dropout : ℚ
  num_answers : ℤ
  embeddings : List Vec
  linear1_w : List Vec
  linear1_b : Vec
  linear2_w : List Vec
  linear2_b : Vec
deriving DecidableEq

/-- `DanModel.forward` on one batch row, in eval mode (`nn.Dropout` is the
identity there): embedding lookup, masked average, then
`linear1 → ReLU → Dropout → linear2`. -/
def forwardRow (m : Model) (ids : List ℕ) (len : ℕ) : Vec :=
  let emb := embedLookup m.emb_dim m.embeddings ids
  let avg := averageRow m.emb_dim emb len
  affine m.linear2_w m.linear2_b (relu (affine m.linear1_w m.linear1_b avg))

/-- `DanModel.forward` on a whole batch (the network applies row by row). -/
def forwardBatch (m : Model) (rows : List (List ℕ)) (lens : List ℕ) : List Vec :=
  List.zipWith (forwardRow m) rows lens

/-- `DanModel.initialize_parameters`.  When `initialization == "identity"` the
method's first statement is `assert emb_dim==n_hidden_units, ...`, but the bare
names `emb_dim`, `n_hidden_units` (and later `loss`, `n_answers`) are not bound
in the method or at module scope, so Python raises `NameError` before any
assertion is evaluated or any weight is copied; otherwise the method does
nothing. -/
def initialize_parameters (initialization : String) (m : Model) : Except String Model :=
  if initialization = "identity" then
    Except.error "NameError: name 'emb_dim' is not defined"
  else
    Except.ok m

/-- The identity-initialized variant of a model that the specification's
identity branch describes: both linear layers become identity matrices with
zero biases. -/
def identityInitialized (m : Model) : Model :=
  { m with
    linear1_w := (List.range m.n_hidden_units).map
      (fun i => (List.range m.n_hidden_units).map (fun j => if i = j then (1 : ℚ) else 0))
    linear2_w := (List.range m.n_hidden_units).map
      (fun i => (List.range m.n_hidden_units).map (fun j => if i = j then (1 : ℚ) else 0))
    linear1_b := List.replicate m.n_hidden_units 0
    linear2_b := List.replicate m.n_hidden_units 0 }

/-- An `Example` as built by `QuestionData.__getitem__`: `tokens` is the 1-D
tensor `q_vec[0]`, while `positive` and `negative` are the raw 2-D results of
`vectorize` (shape `1 × L`, i.e. a singleton list holding the token row), kept
2-D exactly as in the source. -/
structure Example where
  tokens : List ℕ
  answer : String
  positive : Option (List (List ℕ)) := none
  negative : Option (List (List ℕ)) := none

/-- `Example.longest_example_length`: the maximum of `len(token_ids)` over the
non-`None` members of `[self.tokens, self.positive, self.negative]`.  Note that
`positive` and `negative` are 2-D of shape `1 × L`, so Python's `len` returns
their first dimension, `1`, not the token count `L`. -/
def longest_example_length (ex : Example) : ℕ :=
  max ex.tokens.length (max ((ex.positive.getD []).length) ((ex.negative.getD []).length))

/-- A classification-mode batch as assembled by
`DanGuesser.batchify_examples_only`. -/
structure QBatch where
  question_text : List (List ℕ)
  question_len : List ℕ
  answers : List String
  ex_indices : List ℕ
deriving DecidableEq

/-- `DanGuesser.batchify_examples_only`: compute the batch-wide maximum of
`longest_example_length`, allocate a zero-filled `num_examples × max_length`
matrix, and copy each example's tokens left-aligned into its row.  A `none`
result models the Python exceptions: `max()` on an empty batch raises, and
`longest_example_length` asserts `max_length > 0` for each example. -/
def batchify_examples_only (batch : List Example) : Option QBatch :=
  if batch.isEmpty then none
  else if batch.any (fun ex => longest_example_length ex = 0) then none
  else
    let max_length := (batch.map longest_example_length).foldr max 0
    some
      { question_text := batch.map
          (fun ex => ex.tokens ++ List.replicate (max_length - ex.tokens.length) 0)
        question_len := batch.map (fun ex => ex.tokens.length)
        answers := batch.map (fun ex => ex.answer)
        ex_indices := List.range batch.length }

/-- A ranking-mode batch as assembled by `DanGuesser.batchify_with_contrastive`:
the classification batch plus positive/negative matrices and lengths. -/
structure CBatch where
  q_batch : QBatch
  pos_text : List (List ℕ)
  pos_len : List ℕ
  neg_text : List (List ℕ)
  neg_len : List ℕ
deriving DecidableEq

/-- Copy of one contrastive token row into a zero-filled row of width
`max_length`: `matrix[idx, :len(seq)].copy_(LongTensor(seq))`.  Tensor slicing
clamps `:len(seq)` to the row width, so when `len(seq) > max_length` the copy
raises a size-mismatch `RuntimeError`, modelled by `none`. -/
def copyIntoRow (max_length : ℕ) (seq : List ℕ) : Option (List ℕ) :=
  if seq.length ≤ max_length then some (seq ++ List.replicate (max_length - seq.length) 0)
  else none

/-- `DanGuesser.batchify_with_contrastive`: build the anchor batch with
`batchify_examples_only`, recompute the same `max_length`, then copy each
example's positive and negative rows (`ex.positive[0]`, or `[]` when `None`)
into zero-filled matrices of that width, recording their true lengths. -/
def batchify_with_contrastive (batch : List Example) : Option CBatch := do
  let q_batch ← batchify_examples_only batch
  let max_length := (batch.map longest_example_length).foldr max 0
  let posRows : List (List ℕ) := batch.map (fun ex => (ex.positive.getD [[]]).getD 0 [])
  let negRows : List (List ℕ) := batch.map (fun ex => (ex.negative.getD [[]]).getD 0 [])
  let pos_text ← posRows.mapM (copyIntoRow max_length)
  let neg_text ← negRows.mapM (copyIntoRow max_length)
  some
    { q_batch := q_batch
      pos_text := pos_text
      pos_len := posRows.map List.length
      neg_text := neg_text
      neg_len := negRows.map List.length }

/-- Modelled from the spec: the `Vocab` class lives in the external `vocab`
module, which is not under `src/`.  Following the specification's data model
("bidirectional mapping token↔integer id, bounded size, with a reserved
unknown-token id and a reserved padding id (id 0)") and the call site in
`QuestionData.build_vocab`, a vocabulary is an ordered token list (index ↦
token) with an optional default index for unknown tokens. -/
structure Vocab where
  tokens : List String
  default_index : Option ℕ
deriving DecidableEq

/-- The distinct elements of a list, keeping the first occurrence of each, in
order of first occurrence. -/
def distinctFirst {α : Type} [DecidableEq α] (l : List α) : List α :=
  l.reverse.dedup.reverse

/-- Modelled from the spec: `Vocab.build_vocab_from_iterator` (external `vocab`
module).  The special tokens occupy the first indices, followed by the distinct
corpus tokens, and the vocabulary is capped at `max_tokens` entries when that
bound is non-negative; no default index is set yet. -/
def build_vocab_from_iterator (corpus : List (List String)) (specials : List String)
    (max_tokens : ℤ) : Vocab :=
  let toks := specials ++ (distinctFirst corpus.flatten).filter (fun t => t ∉ specials)
  { tokens := if max_tokens < 0 then toks else toks.take max_tokens.toNat
    default_index := none }

/-- Modelled from the spec: `Vocab.set_default_index` (external `vocab` module)
records the index returned for out-of-vocabulary tokens. -/
def set_default_index (v : Vocab) (d : ℕ) : Vocab := { v with default_index := some d }

/-- Modelled from the spec: `vocab[token]` returns the index of the token if
present, and the default index otherwise. -/
def vocabLookup (v : Vocab) (t : String) : ℕ :=
  (v.tokens.indexOf? t).getD (v.default_index.getD 0)

/-- `QuestionData.build_vocab` (in `src/`): build the vocabulary from the
tokenized questions with `specials=["<unk>"]` and `max_tokens=self.vocab_size`,
then set the default index to `self.vocab["<unk>"]`. -/
def build_vocab (corpus : List (List String)) (vocab_size : ℤ) : Vocab :=
  let v := build_vocab_from_iterator corpus ["<unk>"] vocab_size
  set_default_index v (vocabLookup v "<unk>")

/-- Lexicographic comparison of Python strings (code-point order on the
character sequences), the order `sorted` uses on the label component of the
key `(-count, label)`. -/
def strLe (a b : String) : Prop := a.data ≤ b.data

/-- One input record as consumed by `QuestionData.set_data`: the free-text
field plus the answer field, `none` when the answer field is missing. -/
structure Record where
  text : String
  page : Option String
deriving DecidableEq

/-- The answer label of a record when the answer field is present and truthy
(Python: `answer_field in x and x[answer_field]`; the empty string is falsy). -/
def truthyLabel (r : Record) : Option String :=
  match r.page with
  | some a => if a = "" then none else some a
  | none => none

/-- The labels counted by `Counter(x[answer_field] for x in questions if
answer_field in x and x[answer_field])`. -/
def countedLabels (questions : List Record) : List String :=
  questions.filterMap truthyLabel

/-- The entries of the `Counter`: each distinct counted label, in first-insertion
order, paired with its frequency. -/
def answerCounts (questions : List Record) : List (String × ℕ) :=
  (distinctFirst (countedLabels questions)).map
    (fun a => (a, (countedLabels questions).count a))

/-- Descending-count order used by `Counter.most_common` (`heapq.nlargest` is
the stable descending sort by count). -/
def countGe (x y : String × ℕ) : Prop := y.2 ≤ x.2

instance : DecidableRel countGe := fun x y => inferInstanceAs (Decidable (y.2 ≤ x.2))

/-- `answer_counts.most_common(n)`: the entries stably sorted by descending
count, truncated to the top `n`. -/
def mostCommon (n : ℕ) (items : List (String × ℕ)) : List (String × ℕ) :=
  (List.insertionSort countGe items).take n

/-- The ascending order on keys `(-count, label)` used in
`sorted(valid_answers, key=lambda x: (-x[1], x[0]))`. -/
def keyLe (x y : String × ℕ) : Prop :=
  y.2 < x.2 ∨ (x.2 = y.2 ∧ strLe x.1 y.1)

instance : DecidableRel keyLe := fun x y =>
  inferInstanceAs (Decidable (y.2 < x.2 ∨ (x.2 = y.2 ∧ x.1.data ≤ y.1.data)))

/-- The `valid_answers` list of `QuestionData.set_data` (the `fix_answers is
None` branch): the most common answers, kept only when their count reaches
`answer_min_freq`. -/
def valid_answers (questions : List Record) (answer_max_count answer_min_freq : ℕ) :
    List (String × ℕ) :=
  (mostCommon answer_max_count (answerCounts questions)).filter
    (fun x => answer_min_freq ≤ x.2)

/-- The `self.answer_indices` list built by `QuestionData.set_data` from a
training set: the valid answers sorted by `(-count, label)` and projected to
the labels. -/
def answer_indices_of (questions : List Record) (answer_max_count answer_min_freq : ℕ) :
    List String :=
  (List.insertionSort keyLe (valid_answers questions answer_max_count answer_min_freq)).map
    Prod.fst

/-- The record filter of `QuestionData.set_data`:
`answer_field in x and x[answer_field] in valid_answers`. -/
def keptB (validSet : List String) (r : Record) : Bool :=
  match r.page with
  | some a => decide (a ∈ validSet)
  | none => false

/-- `self.questions` as set by `QuestionData.set_data` given the valid-answer
list (for the eval set this list is the frozen `fix_answers`). -/
def set_data_questions (questions : List Record) (validSet : List String) : List String :=
  (questions.filter (keptB validSet)).map (fun r => r.text)

/-- `self.answers` as set by `QuestionData.set_data` given the valid-answer
list. -/
def set_data_answers (questions : List Record) (validSet : List String) : List String :=
  (questions.filter (keptB validSet)).map (fun r => r.page.getD "")

/-- Squared Euclidean distance, the metric of `faiss.IndexFlatL2`. -/
def sqDist (x y : Vec) : ℚ := (List.zipWith (fun a b => (a - b) ^ 2) x y).sum

/-- Index of the smallest element of a list of distances, lowest index on ties
(the first hit a flat L2 index returns). -/
def argminIdx : List ℚ → ℕ
  | [] => 0
  | x :: xs =>
    match xs with
    | [] => 0
    | _ :: _ => if x ≤ (xs.map id).foldr qmin x then 0 else argminIdx xs + 1

/-- Index of the largest element of a list (first on ties): the arg-max of
`torch.max(logits, 1)` for one row. -/
def argmaxIdx : List ℚ → ℕ
  | [] => 0
  | x :: xs =>
    match xs with
    | [] => 0
    | _ :: _ => if (xs.map id).foldr qmax x ≤ x then 0 else argmaxIdx xs + 1

/-- The `k` stored rows closest to a query under squared L2 distance, nearest
first, ties by ordinal (modelled from the `faiss.IndexFlatL2.search` contract:
an exact flat index). -/
def nearestIndices (store : List Vec) (q : Vec) (k : ℕ) : List ℕ :=
  (List.insertionSort
    (fun i j => sqDist (store.getD i []) q < sqDist (store.getD j []) q ∨
      (sqDist (store.getD i []) q = sqDist (store.getD j []) q ∧ i ≤ j))
    (List.range store.length)).take k

/-- State of a `QuestionData` object: the store of per-example representations,
the parallel question/answer lists, the frozen answer index, and the optional
nearest-neighbour lookup (`self.lookup`, `None` until the first
`refresh_index`). -/
structure QuestionData where
  dimension : ℕ
  use_contrastive_examples : Bool
  vocab : Vocab
  answer_indices : List String
  questions : List String
  answers : List String
  representations : List Vec
  lookup : Option (List Vec)
deriving DecidableEq

/-- `QuestionData.__init__`: fresh state for the given configuration; in
particular `self.lookup = None` — no index exists before the first
`refresh_index`. -/
def initQuestionData (dimension : ℕ) (use_contrastive : Bool) : QuestionData :=
  { dimension := dimension
    use_contrastive_examples := use_contrastive
    vocab := { tokens := [], default_index := none }
    answer_indices := []
    questions := []
    answers := []
    representations := []
    lookup := none }

/-- `QuestionData.refresh_index`: rebuild the lookup from the full current
contents of the representation store. -/
def refresh_index (qd : QuestionData) : QuestionData :=
  { qd with lookup := some qd.representations }

/-- `QuestionData.get_nearest`: a single-query search.  Its first statement is
`assert self.lookup is not None, "Did you not initialize the KD tree by calling
refresh_index?"`, so a query before the first `refresh_index` is a fatal
assertion failure. -/
def get_nearest (qd : QuestionData) (query_row : Vec) (n_nearest : ℕ) :
    Except String (List ℕ) :=
  match qd.lookup with
  | none =>
      Except.error "AssertionError: Did you not initialize the KD tree by calling refresh_index?"
  | some store => Except.ok (nearestIndices store query_row n_nearest)

/-- `QuestionData.get_batch_nearest` with `lookup_answer=True` (the
configuration its callers use): resolve each query's nearest stored row to its
answer label.  Before the first `refresh_index`, `self.lookup` is `None` and
`self.lookup.search(...)` raises `AttributeError`. -/
def get_batch_nearest (qd : QuestionData) (query_representation : List Vec)
    (n_nearest : ℕ) : Except String (List String) :=
  match qd.lookup with
  | none => Except.error "AttributeError: 'NoneType' object has no attribute 'search'"
  | some store =>
      Except.ok (query_representation.map
        (fun r => qd.answers.getD (argminIdx (store.map (fun row => sqDist row r))) ""))

/-- Conversion of the batch's gold labels to indices in the frozen answer list:
`[train_data.answer_indices.index(label) for label in labels]`.  `none` models
the `ValueError` that `list.index` raises on an absent label. -/
def labelIndices (answer_indices : List String) : List String → Option (List ℕ)
  | [] => some []
  | l :: rest =>
    match answer_indices.indexOf? l, labelIndices answer_indices rest with
    | some i, some is => some (i :: is)
    | _, _ => none

/-- One batch as produced by the data loader for `evaluate`. -/
structure Batch where
  question_text : List (List ℕ)
  question_len : List ℕ
  answers : List String
deriving DecidableEq

/-- `number_errors`: run the model over the batch and count prediction
mismatches.  In ranking mode the prediction is the label of the nearest stored
representation; in classification mode it is the arg-max logit compared with
the gold label's index in the frozen answer list. -/
def number_errors (question_text : List (List ℕ)) (question_len : List ℕ)
    (labels : List String) (train_data : QuestionData) (model : Model) :
    Except String ℕ :=
  match model.criterion with
  | Criterion.marginRankingLoss => do
      let representations := forwardBatch model question_text question_len
      let predictions ← get_batch_nearest train_data representations 1
      Except.ok ((predictions.zip labels).countP (fun pl => pl.1 != pl.2))
  | Criterion.crossEntropyLoss =>
      let logits := forwardBatch model question_text question_len
      let predicted := logits.map argmaxIdx
      match labelIndices train_data.answer_indices labels with
      | none => Except.error "ValueError: label is not in list"
      | some label_tensor =>
          Except.ok ((predicted.zip label_tensor).countP (fun pl => pl.1 != pl.2))

/-- The accumulation loop of `evaluate` over the data loader's batches:
`error += number_errors(...)`, `num_examples += question_text.size(0)`. -/
def evalLoop (model : Model) (train_data : QuestionData) :
    List Batch → ℕ → ℕ → Except String (ℕ × ℕ)
  | [], err, num => Except.ok (err, num)
  | b :: rest, err, num => do
      let e ← number_errors b.question_text b.question_len b.answers train_data model
      evalLoop model train_data rest (err + e) (num + b.question_text.length)

/-- `evaluate`: accumulate errors and example counts over all batches and
return `1 - error / num_examples`.  On an empty dataset `num_examples` is zero
and the division raises `ZeroDivisionError`, modelled as an error. -/
def evaluate (data_loader : List Batch) (model : Model) (train_data : QuestionData) :
    Except String ℚ := do
  let en ← evalLoop model train_data data_loader 0 0
  if en.2 = 0 then Except.error "ZeroDivisionError: division by zero"
  else Except.ok (1 - (en.1 : ℚ) / (en.2 : ℚ))

/-- State of a `DanGuesser` holding a trained model and its training data. -/
structure Guesser where
  model : Model
  training_data : QuestionData
deriving DecidableEq

/-- The model checkpoint dictionary written by `DanGuesser.save` to
`<filename>.torch.pkl`. -/
structure ModelCheckpoint where
  embeddings_weight : List Vec
  linear1_weight : List Vec
  linear1_bias : Vec
  linear2_weight : List Vec
  linear2_bias : Vec
  vocab : Vocab
  answer_indices : List String
  dimension : ℕ
  criterion : Criterion
  vocab_size : ℕ
  emb_dim : ℕ
  n_hidden_units : ℕ
  nn_dropout : ℚ
  num_answers : ℤ
deriving DecidableEq

/-- The mode-conditional data checkpoint written to `<filename>.data.pkl` when
the loss is `MarginRankingLoss`. -/
structure DataCheckpoint where
  representations : List Vec
  questions : List String
  answers : List String
deriving DecidableEq

/-- `DanGuesser.save`: persist the model state dict plus the logical fields,
and — only in contrastive mode — the representation store with its parallel
question/answer lists. -/
def save (g : Guesser) : ModelCheckpoint × Option DataCheckpoint :=
  ({ embeddings_weight := g.model.embeddings
     linear1_weight := g.model.linear1_w
     linear1_bias := g.model.linear1_b
     linear2_weight := g.model.linear2_w
     linear2_bias := g.model.linear2_b
     vocab := g.training_data.vocab
     answer_indices := g.training_data.answer_indices
     dimension := g.training_data.dimension
     criterion := g.model.criterion
     vocab_size := g.model.vocab_size
     emb_dim := g.model.emb_dim
     n_hidden_units := g.model.n_hidden_units
     nn_dropout := g.model.nn_dropout
     num_answers := g.model.num_answers },
   if g.training_data.use_contrastive_examples then
     some { representations := g.training_data.representations
            questions := g.training_data.questions
            answers := g.training_data.answers }
   else none)

/-- `DanGuesser.load` into a fresh instance constructed from the same
parameters (`params_criterion` is `parameters.dan_guesser_criterion`, which
decides `use_contrastive_examples` of the fresh `QuestionData`): rebuild the
model from the checkpoint, restore its state dict, reconstruct the training
data, and — when the data checkpoint exists — restore the store and call
`refresh_index`. -/
def load (params_criterion : Criterion) (ck : ModelCheckpoint × Option DataCheckpoint) :
    Guesser :=
  let model : Model :=
    { criterion := ck.1.criterion
      vocab_size := ck.1.vocab_size
      emb_dim := ck.1.emb_dim
      n_hidden_units := ck.1.n_hidden_units
      nn_dropout := ck.1.nn_dropout
      num_answers := ck.1.num_answers
      embeddings := ck.1.embeddings_weight
      linear1_w := ck.1.linear1_weight
      linear1_b := ck.1.linear1_bias
      linear2_w := ck.1.linear2_weight
      linear2_b := ck.1.linear2_bias }
  let base : QuestionData :=
    { initQuestionData ck.1.dimension (params_criterion ≠ Criterion.crossEntropyLoss) with
      vocab := ck.1.vocab
      answer_indices := ck.1.answer_indices }
  let td : QuestionData :=
    match ck.2 with
    | some dck =>
        refresh_index { base with
          representations := dck.representations
          questions := dck.questions
          answers := dck.answers }
    | none => base
  { model := model, training_data := td }

/-- Indices of the `k` largest logits, in descending order of value with ties
by index (`torch.topk(representation, k, dim=1)` for one row, made
deterministic on ties). -/
def topkIdx (v : Vec) (k : ℕ) : List ℕ :=
  (List.insertionSort
    (fun i j => v.getD j 0 < v.getD i 0 ∨ (v.getD i 0 = v.getD j 0 ∧ i ≤ j))
    (List.range v.length)).take k

/-- `DanGuesser.__call__` (the predict path), for an already tokenized
question (tokenization is an external collaborator): vectorize through the
frozen vocabulary, run one forward pass in eval mode, then either k-nearest
lookup (contrastive mode) or top-k logits resolved through the answer list;
a guess equal to `kUNK = "<unk>"` becomes the empty string. -/
def dan_call (g : Guesser) (question_tokens : List String) (n_guesses : ℕ) :
    Except String (List String) :=
  let q_vec := question_tokens.map (vocabLookup g.training_data.vocab)
  let question_len := q_vec.length
  let representation := forwardRow g.model q_vec question_len
  if g.training_data.use_contrastive_examples then do
    let raw ← get_nearest g.training_data representation n_guesses
    Except.ok (raw.map (fun i =>
      let a := g.training_data.answers.getD i ""
      if a = "<unk>" then "" else a))
  else
    let num_classes := representation.length
    let k := min n_guesses num_classes
    let raw := topkIdx representation k
    Except.ok (raw.map (fun i =>
      let a := g.training_data.answer_indices.getD i ""
      if a = "<unk>" then "" else a))

/-- `torch.pairwise_distance` with `p = 2` (the idealized real-valued
semantics, without the numerical-stability epsilon): the Euclidean distance of
two vectors. -/
noncomputable def pairwise_distance (x y : List ℝ) : ℝ :=
  Real.sqrt ((List.zipWith (fun a b => (a - b) ^ 2) x y).sum)

/-- Helper zip over three parallel tensors. -/
def zipWith3 {α β γ δ : Type} (f : α → β → γ → δ) : List α → List β → List γ → List δ
  | a :: as, b :: bs, c :: cs => f a b c :: zipWith3 f as bs cs
  | _, _, _ => []

/-- `nn.MarginRankingLoss` with reduction `"mean"` (the default):
`mean_i max(0, -target_i * (x1_i - x2_i) + margin)`. -/
noncomputable def marginRankingLossFn (margin : ℝ) (x1 x2 target : List ℝ) : ℝ :=
  (zipWith3 (fun a b t => max 0 (margin - t * (a - b))) x1 x2 target).sum / x1.length

/-- The ranking branch of `DanGuesser.batch_step`, applied to the three
batches of representations the forward passes produce: `pos_dist` and
`neg_dist` are the pairwise Euclidean distances, `target = torch.ones(...)`,
and the loss is `criterion(neg_dist, pos_dist, target)`. -/
noncomputable def batch_step_ranking_loss (margin : ℝ)
    (anchor_rep positive_rep negative_rep : List (List ℝ)) : ℝ :=
  let pos_dist := List.zipWith pairwise_distance anchor_rep positive_rep
  let neg_dist := List.zipWith pairwise_distance anchor_rep negative_rep
  let target := List.replicate pos_dist.length (1 : ℝ)
  marginRankingLossFn margin neg_dist pos_dist target

/- Auxiliary lemmas about vector sums and the averaging step. -/

theorem sumVecs_nil (d : ℕ) : sumVecs d [] = List.replicate d 0 := rfl

theorem sumVecs_cons (d : ℕ) (v : Vec) (vs : List Vec) :
    sumVecs d (v :: vs) = vadd v (sumVecs d vs) := rfl

theorem vadd_zero_zero (d : ℕ) :
    vadd (List.replicate d 0) (List.replicate d 0) = List.replicate d 0 := by
  simp [vadd, List.zipWith_replicate]

theorem sumVecs_zeros (d m : ℕ) :
    sumVecs d (List.replicate m (List.replicate d 0)) = List.replicate d 0 := by
  induction m with
  | zero => rfl
  | succ m ih => rw [List.replicate_succ, sumVecs_cons, ih, vadd_zero_zero]

theorem sumVecs_append_zeros (d m : ℕ) (xs : List Vec) :
    sumVecs d (xs ++ List.replicate m (List.replicate d 0)) = sumVecs d xs := by
  unfold sumVecs
  rw [List.foldr_append]
  have h : List.foldr vadd (List.replicate d 0) (List.replicate m (List.replicate d 0))
      = List.replicate d 0 := sumVecs_zeros d m
  rw [h]

theorem embedLookup_all_pad (d : ℕ) (table : List Vec) (ids : List ℕ)
    (h0 : table.getD 0 (List.replicate d 0) = List.replicate d 0)
    (hids : ∀ i ∈ ids, i = 0) :
    embedLookup d table ids = List.replicate ids.length (List.replicate d 0) := by
  induction ids with
  | nil => rfl
  | cons a as ih =>
      have ha : a = 0 := hids a (List.mem_cons_self a as)
      have hrest : ∀ i ∈ as, i = 0 := fun i hi => hids i (List.mem_cons_of_mem a hi)
      simp only [embedLookup, List.map_cons, List.length_cons, List.replicate_succ]
      rw [ha, h0]
      have hih := ih hrest
      simp only [embedLookup] at hih
      rw [hih]

theorem average_getD (d : ℕ) (embs : List (List Vec)) (lens : List ℕ) (i : ℕ)
    (hi : i < embs.length) (hlen : embs.length = lens.length) :
    (average d embs lens).getD i [] = averageRow d (embs.getD i []) (lens.getD i 0) := by
  have hz : i < (List.zipWith (averageRow d) embs lens).length := by
    rw [List.length_zipWith, ← hlen]
    simpa using hi
  rw [average, List.getD_eq_getElem _ _ hz, List.getElem_zipWith,
    List.getD_eq_getElem _ _ hi, List.getD_eq_getElem _ _ (hlen ▸ hi)]

theorem drop_all_pad (row : List ℕ) (L : ℕ)
    (hpad : ∀ j, L ≤ j → row.getD j 0 = 0) :
    row.drop L = List.replicate (row.length - L) 0 := by
  have hlen : (row.drop L).length = row.length - L := List.length_drop L row
  have hmem : ∀ x ∈ row.drop L, x = 0 := by
    intro x hx
    obtain ⟨j, hj, hjx⟩ := List.mem_iff_getElem.mp hx
    have hjl : L + j < row.length := by
      have := hlen ▸ hj
      omega
    have : (row.drop L)[j] = row[L + j] := List.getElem_drop row
    rw [this] at hjx
    have := hpad (L + j) (Nat.le_add_right L j)
    rw [List.getD_eq_getElem _ _ hjl] at this
    rw [← hjx, this]
  rw [← hlen]
  exact List.eq_replicate_of_mem hmem

/-- Claim C1.  Masked average pooling: in the encoder, a batch row of token ids
whose positions beyond the true length `L` hold the padding id 0 (which the
embedding table, built with `padding_idx=0`, maps to the zero vector) is pooled
to exactly the elementwise mean of its first `L` embedded positions — the
padded tail contributes nothing and only the true length is the divisor — and
for `L = 0` the divisor is clamped to 1, so no division by zero occurs. -/
theorem C1_masked_average_pooling_first_L (d : ℕ) (table : List Vec)
    (rows : List (List ℕ)) (lens : List ℕ) (i : ℕ)
    (hrow0 : table.getD 0 (List.replicate d 0) = List.replicate d 0)
    (hi : i < rows.length) (hlen : rows.length = lens.length)
    (hpad : ∀ j, lens.getD i 0 ≤ j → (rows.getD i []).getD j 0 = 0) :
    (1 ≤ lens.getD i 0 →
      (average d (rows.map (embedLookup d table)) lens).getD i []
        = (sumVecs d (embedLookup d table ((rows.getD i []).take (lens.getD i 0)))).map
            (fun x => x / (lens.getD i 0 : ℚ)))
    ∧ (lens.getD i 0 = 0 →
      (average d (rows.map (embedLookup d table)) lens).getD i []
        = (sumVecs d (embedLookup d table (rows.getD i []))).map (fun x => x / 1)) := by
  have hmi : i < (rows.map (embedLookup d table)).length := by simpa using hi
  have hmlen : (rows.map (embedLookup d table)).length = lens.length := by
    simpa using hlen
  have hget : (rows.map (embedLookup d table)).getD i []
      = embedLookup d table (rows.getD i []) := by
    rw [List.getD_eq_getElem _ _ hmi, List.getElem_map, List.getD_eq_getElem _ _ hi]
  have hbatch : (average d (rows.map (embedLookup d table)) lens).getD i []
      = averageRow d (embedLookup d table (rows.getD i [])) (lens.getD i 0) := by
    rw [average_getD d _ lens i hmi hmlen, hget]
  set row := rows.getD i [] with hrow
  set L := lens.getD i 0 with hL
  have hsplit : embedLookup d table row
      = embedLookup d table (row.take L) ++ embedLookup d table (row.drop L) := by
    rw [embedLookup, embedLookup, embedLookup, ← List.map_append, List.take_append_drop]
  have hdrop : embedLookup d table (row.drop L)
      = List.replicate (row.drop L).length (List.replicate d 0) := by
    apply embedLookup_all_pad d table _ hrow0
    intro x hx
    have h := drop_all_pad row L hpad
    rw [h] at hx
    exact List.eq_of_mem_replicate hx
  have hsum : sumVecs d (embedLookup d table row)
      = sumVecs d (embedLookup d table (row.take L)) := by
    rw [hsplit, hdrop, sumVecs_append_zeros]
  constructor
  · intro h1
    have hmax : qmax (L : ℚ) 1 = (L : ℚ) := by
      rw [qmax]
      split_ifs with h
      · exact le_antisymm (by exact_mod_cast h1) h
      · rfl
    rw [hbatch, averageRow, hsum, hmax]
  · intro h0
    have hmax : qmax (L : ℚ) 1 = 1 := by
      rw [qmax, if_pos]
      rw [h0]
      simp
    rw [hbatch, averageRow, hmax]

/-- Witness for C1 at a concrete batch: one row `[1, 2, 0, 0]` of true length 2
pools to the mean of its first two embedded positions. -/
theorem C1_masked_average_pooling_first_L_witness :
    (average 1 (([[1, 2, 0, 0]] : List (List ℕ)).map (embedLookup 1 [[0], [2], [4]]))
        [2]).getD 0 []
      = (sumVecs 1 (embedLookup 1 [[0], [2], [4]] (([1, 2, 0, 0] : List ℕ).take 2))).map
          (fun x => x / (2 : ℚ)) := by
  have h := (C1_masked_average_pooling_first_L 1 [[0], [2], [4]] [[1, 2, 0, 0]] [2] 0
    (by decide) (by decide) (by decide)
    (by
      intro j hj
      match j, hj with
      | 2, _ => rfl
      | 3, _ => rfl
      | (n + 4), _ => rfl)).1 (by decide)
  simpa using h

/- Auxiliary lemmas for the padding/unknown-token invariants. -/

theorem vadd_zero_left (v : Vec) : vadd (List.replicate v.length 0) v = v := by
  induction v with
  | nil => rfl
  | cons a as ih =>
      simp only [List.length_cons, List.replicate_succ, vadd, List.zipWith_cons_cons, zero_add]
      exact congrArg (a :: ·) ih

theorem sumVecs_length (d : ℕ) (vs : List Vec) (h : ∀ v ∈ vs, v.length = d) :
    (sumVecs d vs).length = d := by
  induction vs with
  | nil => simp [sumVecs]
  | cons v rest ih =>
      have hv : v.length = d := h v (List.mem_cons_self v rest)
      have hrest := ih (fun w hw => h w (List.mem_cons_of_mem v hw))
      rw [sumVecs_cons, vadd, List.length_zipWith, hv, hrest]
      simp

theorem embedLookup_length (d : ℕ) (table : List Vec) (ids : List ℕ)
    (htable : ∀ v ∈ table, v.length = d) :
    ∀ v ∈ embedLookup d table ids, v.length = d := by
  intro v hv
  obtain ⟨i, _, hiv⟩ := List.mem_map.mp hv
  by_cases hlt : i < table.length
  · rw [List.getD_eq_getElem _ _ hlt] at hiv
    exact hiv ▸ htable _ (List.getElem_mem hlt)
  · rw [List.getD_eq_default _ _ (Nat.le_of_not_lt hlt)] at hiv
    rw [← hiv, List.length_replicate]

theorem padded_row_getD (tokens : List ℕ) (m j : ℕ) (hj : tokens.length ≤ j) :
    (tokens ++ List.replicate m 0).getD j 0 = 0 := by
  by_cases hlt : j < (tokens ++ List.replicate m 0).length
  · rw [List.getD_eq_getElem _ _ hlt, List.getElem_append_right hj, List.getElem_replicate]
  · rw [List.getD_eq_default _ _ (Nat.le_of_not_lt hlt)]

theorem vadd_zero_left_of_length (d : ℕ) (v : Vec) (h : v.length = d) :
    vadd (List.replicate d 0) v = v := by
  subst h
  exact vadd_zero_left v

theorem zipWith_getD_zero {α β γ : Type} (f : α → β → γ) (xs : List α) (ys : List β)
    (dx : α) (dy : β) (dz : γ) (hx : 0 < xs.length) (hy : 0 < ys.length) :
    (List.zipWith f xs ys).getD 0 dz = f (xs.getD 0 dx) (ys.getD 0 dy) := by
  cases xs with
  | nil => simp at hx
  | cons a as =>
      cases ys with
      | nil => simp at hy
      | cons b bs => rfl

theorem build_vocab_tokens_cons (corpus : List (List String)) (vocab_size : ℤ)
    (hvs : vocab_size < 0 ∨ 1 ≤ vocab_size) :
    ∃ rest, (build_vocab corpus vocab_size).tokens = "<unk>" :: rest := by
  have htoks : (build_vocab corpus vocab_size).tokens
      = (build_vocab_from_iterator corpus ["<unk>"] vocab_size).tokens := rfl
  rcases hvs with h | h
  · refine ⟨(distinctFirst corpus.flatten).filter
      (fun t => t ∉ (["<unk>"] : List String)), ?_⟩
    rw [htoks]
    simp only [build_vocab_from_iterator]
    rw [if_pos h]
    rfl
  · have hneg : ¬ vocab_size < 0 := by omega
    have h1 : vocab_size.toNat = (vocab_size.toNat - 1) + 1 := by omega
    refine ⟨((distinctFirst corpus.flatten).filter
      (fun t => t ∉ (["<unk>"] : List String))).take (vocab_size.toNat - 1), ?_⟩
    rw [htoks]
    simp only [build_vocab_from_iterator]
    rw [if_neg hneg, h1]
    rfl

/-- Claim C10.  The padding id and the unknown-token id coincide at id 0: the
vocabulary places `<unk>` at index 0 and maps every out-of-vocabulary token to
it; batch matrices are zero-filled, so padded positions also hold id 0; the
embedding row 0 is the zero vector at construction (`padding_idx=0`) and an SGD
step with the padding-masked gradient leaves it zero; and an unknown token
contributes the zero vector to the pooled sum while still counting toward the
length used as the averaging divisor. -/
theorem C10_padding_and_unknown_share_id_zero (corpus : List (List String))
    (vocab_size : ℤ) (d : ℕ) (w g table : List Vec) (lr : ℚ) (rest : List ℕ)
    (hvs : vocab_size < 0 ∨ 1 ≤ vocab_size)
    (hw0 : w.getD 0 [] = List.replicate d 0) (hwlen : 0 < w.length)
    (hglen : 0 < g.length)
    (hrow0 : table.getD 0 (List.replicate d 0) = List.replicate d 0)
    (htable : ∀ v ∈ table, v.length = d) :
    vocabLookup (build_vocab corpus vocab_size) "<unk>" = 0
    ∧ (∀ t, t ∉ (build_vocab corpus vocab_size).tokens →
        vocabLookup (build_vocab corpus vocab_size) t = 0)
    ∧ (∀ batch qb, batchify_examples_only batch = some qb →
        ∀ i j, qb.question_len.getD i 0 ≤ j → (qb.question_text.getD i []).getD j 0 = 0)
    ∧ (∀ w', 0 < w'.length → (padEmbeddingInit d w').getD 0 [] = List.replicate d 0)
    ∧ (sgdStep lr w (padMaskGrad d g)).getD 0 [] = List.replicate d 0
    ∧ averageRow d (embedLookup d table (0 :: rest)) (rest.length + 1)
        = (sumVecs d (embedLookup d table rest)).map
            (fun x => x / qmax ((rest.length + 1 : ℕ) : ℚ) 1) := by
  obtain ⟨vrest, hvtok⟩ := build_vocab_tokens_cons corpus vocab_size hvs
  have hdef : (build_vocab corpus vocab_size).default_index
      = some (vocabLookup (build_vocab_from_iterator corpus ["<unk>"] vocab_size) "<unk>") := rfl
  have hunk : vocabLookup (build_vocab corpus vocab_size) "<unk>" = 0 := by
    have : (build_vocab corpus vocab_size).tokens.indexOf? "<unk>" = some 0 := by
      rw [hvtok]
      simp [List.indexOf?, List.findIdx?_cons]
    rw [vocabLookup, this]
    rfl
  refine ⟨hunk, ?_, ?_, ?_, ?_, ?_⟩
  · intro t ht
    have hnone : (build_vocab corpus vocab_size).tokens.indexOf? t = none := by
      rw [List.indexOf?_eq_none_iff]
      intro x hx
      simp only [beq_iff_eq]
      intro he
      exact ht (he ▸ hx)
    rw [vocabLookup, hnone, Option.getD_none, hdef]
    have htoks : (build_vocab_from_iterator corpus ["<unk>"] vocab_size).tokens
        = (build_vocab corpus vocab_size).tokens := rfl
    have : (build_vocab_from_iterator corpus ["<unk>"] vocab_size).tokens.indexOf? "<unk>"
        = some 0 := by
      rw [htoks, hvtok]
      simp [List.indexOf?, List.findIdx?_cons]
    simp only [Option.getD_some, vocabLookup, this, Option.getD_some]
  · intro batch qb hsome i j hij
    by_cases hemp : batch.isEmpty
    · rw [batchify_examples_only, if_pos hemp] at hsome
      cases hsome
    by_cases hzero : batch.any (fun ex => longest_example_length ex = 0)
    · rw [batchify_examples_only, if_neg hemp, if_pos hzero] at hsome
      cases hsome
    rw [batchify_examples_only, if_neg hemp, if_neg hzero] at hsome
    have hqb := (Option.some.inj hsome).symm
    subst hqb
    by_cases hib : i < batch.length
    · have hmi : i < (batch.map (fun ex =>
          ex.tokens ++ List.replicate
            ((batch.map longest_example_length).foldr max 0 - ex.tokens.length) 0)).length := by
        simpa using hib
      have hmi2 : i < (batch.map (fun ex => ex.tokens.length)).length := by simpa using hib
      simp only [List.getD_eq_getElem _ _ hmi2, List.getElem_map] at hij
      simp only [List.getD_eq_getElem _ _ hmi, List.getElem_map]
      exact padded_row_getD _ _ j hij
    · have h1 : (batch.map (fun ex =>
          ex.tokens ++ List.replicate
            ((batch.map longest_example_length).foldr max 0 - ex.tokens.length) 0)).getD i []
          = [] :=
        List.getD_eq_default _ _ (by simpa using Nat.le_of_not_lt hib)
      rw [h1]
      rfl
  · intro w' hw'
    rw [padEmbeddingInit, List.getD_eq_getElem _ _ (by simpa using hw'),
      List.getElem_set_self]
  · have hg0 : (padMaskGrad d g).getD 0 [] = List.replicate d 0 := by
      rw [padMaskGrad, List.getD_eq_getElem _ _ (by simpa using hglen),
        List.getElem_set_self]
    have hglen2 : 0 < (padMaskGrad d g).length := by
      rw [padMaskGrad, List.length_set]
      exact hglen
    rw [sgdStep, zipWith_getD_zero _ w (padMaskGrad d g) [] [] [] hwlen hglen2,
      hw0, hg0, List.zipWith_replicate]
    simp
  · have hcons : embedLookup d table (0 :: rest)
        = List.replicate d 0 :: embedLookup d table rest := by
      simp only [embedLookup, List.map_cons]
      rw [hrow0]
    rw [averageRow, hcons, sumVecs_cons]
    have hl : (sumVecs d (embedLookup d table rest)).length = d :=
      sumVecs_length d _ (embedLookup_length d table rest htable)
    rw [vadd_zero_left_of_length d _ hl]

/-- Witness for C10 at concrete inputs: `<unk>` gets id 0 in a built
vocabulary, and pooling a sequence starting with an unknown token (id 0)
divides the sum of the remaining embedded vectors by the full length 2. -/
theorem C10_padding_and_unknown_share_id_zero_witness :
    vocabLookup (build_vocab [["a"]] (-1)) "<unk>" = 0
    ∧ averageRow 1 (embedLookup 1 [[0], [2]] [0, 1]) 2
        = (sumVecs 1 (embedLookup 1 [[0], [2]] [1])).map
            (fun x => x / qmax ((2 : ℕ) : ℚ) 1) := by
  have h := C10_padding_and_unknown_share_id_zero [["a"]] (-1) 1 [[0], [5]] [[3], [4]]
    [[0], [2]] 2 [1] (by decide) (by decide) (by decide) (by decide)
    (by decide) (by decide)
  exact ⟨h.1, by simpa using h.2.2.2.2.2⟩

/-- Claim C3 (failing input).  The claim says the batch-wide maximum sequence
length is taken across anchor, positive and negative sequences in ranking
mode.  In the code, `Example.longest_example_length` applies Python's `len` to
`self.positive` and `self.negative`, which are 2-D tensors of shape `1 × L`, so
it sees `1` instead of the positive/negative token count: for an example with a
2-token anchor and a 3-token positive, the computed maximum is 2, the anchor-only
batch assembles, and `batchify_with_contrastive` crashes with a size-mismatch
`RuntimeError` while copying the 3-token positive into a width-2 row — instead
of producing a width-3 batch as the claim requires. -/
theorem C3_contrastive_max_length_ignores_positive_negative :
    longest_example_length
        { tokens := [5, 6], answer := "a", positive := some [[1, 2, 3]],
          negative := some [[4]] } = 2
    ∧ (batchify_examples_only
        [{ tokens := [5, 6], answer := "a", positive := some [[1, 2, 3]],
           negative := some [[4]] }]).isSome = true
    ∧ batchify_with_contrastive
        [{ tokens := [5, 6], answer := "a", positive := some [[1, 2, 3]],
           negative := some [[4]] }] = none := by
  decide

/-- Claim C4 (code bug).  Requesting identity initialization is supposed to
either set both linear layers to identity matrices with zero biases (when the
dimensions match) or fail on mismatch; in the code the branch dereferences
unbound names (`emb_dim`, `n_hidden_units`), so it raises `NameError`
unconditionally — even when all preconditions hold, no weight is ever set to
the identity. -/
theorem C4_identity_initialization_always_raises_nameerror (m : Model) :
    initialize_parameters "identity" m
        = Except.error "NameError: name 'emb_dim' is not defined"
    ∧ initialize_parameters "identity" m ≠ Except.ok (identityInitialized m) := by
  refine ⟨rfl, ?_⟩
  intro h
  simp [initialize_parameters] at h

/-- Claim C7.  Any nearest-neighbour query (single or batch) issued while
`self.lookup` is still `None` — which is its state from `__init__` until the
first `refresh_index` — fails fatally (`AssertionError` for `get_nearest`,
`AttributeError` for `get_batch_nearest`) and never returns a result. -/
theorem C7_query_before_first_refresh_fails (qd : QuestionData) (q : Vec)
    (reps : List Vec) (k : ℕ) (h : qd.lookup = none) :
    get_nearest qd q k
        = Except.error
            "AssertionError: Did you not initialize the KD tree by calling refresh_index?"
    ∧ get_batch_nearest qd reps k
        = Except.error "AttributeError: 'NoneType' object has no attribute 'search'"
    ∧ (∀ r, get_nearest qd q k ≠ Except.ok r)
    ∧ (∀ r, get_batch_nearest qd reps k ≠ Except.ok r)
    ∧ (∀ dimension flag, (initQuestionData dimension flag).lookup = none) := by
  refine ⟨?_, ?_, ?_, ?_, fun _ _ => rfl⟩
  · rw [get_nearest, h]
  · rw [get_batch_nearest, h]
  · intro r hr
    rw [get_nearest, h] at hr
    cases hr
  · intro r hr
    rw [get_batch_nearest, h] at hr
    cases hr

/-- Witness for C7: a freshly initialized `QuestionData` rejects both the
single and the batch query. -/
theorem C7_query_before_first_refresh_fails_witness :
    get_nearest (initQuestionData 2 true) [1, 0] 1
        = Except.error
            "AssertionError: Did you not initialize the KD tree by calling refresh_index?"
    ∧ get_batch_nearest (initQuestionData 2 true) [[1, 0]] 1
        = Except.error "AttributeError: 'NoneType' object has no attribute 'search'" := by
  have h := C7_query_before_first_refresh_fails (initQuestionData 2 true) [1, 0] [[1, 0]] 1 rfl
  exact ⟨h.1, h.2.1⟩

/- Auxiliary facts for the answer-index construction. -/

theorem keyLe_total (x y : String × ℕ) : keyLe x y ∨ keyLe y x := by
  rcases lt_trichotomy x.2 y.2 with h | h | h
  · exact Or.inr (Or.inl h)
  · rcases le_total x.1.data y.1.data with hd | hd
    · exact Or.inl (Or.inr ⟨h, hd⟩)
    · exact Or.inr (Or.inr ⟨h.symm, hd⟩)
  · exact Or.inl (Or.inl h)

theorem keyLe_trans (x y z : String × ℕ) (hxy : keyLe x y) (hyz : keyLe y z) :
    keyLe x z := by
  rcases hxy with h1 | ⟨h1, d1⟩
  · rcases hyz with h2 | ⟨h2, _⟩
    · exact Or.inl (h2.trans h1)
    · exact Or.inl (h2 ▸ h1)
  · rcases hyz with h2 | ⟨h2, d2⟩
    · exact Or.inl (h1 ▸ h2)
    · exact Or.inr ⟨h1.trans h2, le_trans d1 d2⟩

theorem countGe_total (x y : String × ℕ) : countGe x y ∨ countGe y x :=
  le_total y.2 x.2

theorem countGe_trans (x y z : String × ℕ) (hxy : countGe x y) (hyz : countGe y z) :
    countGe x z := le_trans hyz hxy

theorem distinctFirst_nodup {α : Type} [DecidableEq α] (l : List α) :
    (distinctFirst l).Nodup :=
  List.nodup_reverse.mpr (List.nodup_dedup _)

theorem mem_distinctFirst {α : Type} [DecidableEq α] (a : α) (l : List α) :
    a ∈ distinctFirst l ↔ a ∈ l := by
  unfold distinctFirst
  rw [List.mem_reverse, List.mem_dedup, List.mem_reverse]

theorem answerCounts_fst (questions : List Record) :
    (answerCounts questions).map Prod.fst = distinctFirst (countedLabels questions) := by
  rw [answerCounts, List.map_map]
  simp [Function.comp_def]

theorem mem_answerCounts (questions : List Record) (x : String × ℕ)
    (hx : x ∈ answerCounts questions) :
    x.2 = (countedLabels questions).count x.1 ∧ x.1 ∈ countedLabels questions := by
  obtain ⟨a, ha, hax⟩ := List.mem_map.mp hx
  refine ⟨by rw [← hax], ?_⟩
  rw [← hax]
  exact (mem_distinctFirst a _).mp ha

theorem mem_valid_answers (questions : List Record) (c f : ℕ) (x : String × ℕ)
    (hx : x ∈ valid_answers questions c f) :
    x ∈ answerCounts questions ∧ f ≤ x.2 := by
  have h1 := List.mem_filter.mp hx
  have hsub : (mostCommon c (answerCounts questions)).Sublist
      (List.insertionSort countGe (answerCounts questions)) :=
    List.take_sublist _ _
  have h2 : x ∈ List.insertionSort countGe (answerCounts questions) :=
    hsub.subset h1.1
  have h3 : x ∈ answerCounts questions :=
    (List.perm_insertionSort countGe (answerCounts questions)).mem_iff.mp h2
  exact ⟨h3, by exact_mod_cast of_decide_eq_true h1.2⟩

/-- Claim C5.  The answer index built from a training set is de-duplicated,
contains only labels of the counted training labels whose frequency reaches
the minimum-frequency threshold, is bounded in length by the maximum-class
count, and is ordered by strictly descending frequency with ties broken by
strictly ascending lexicographic (code-point) order of the label. -/
theorem C5_answer_index_ordered_bounded_deduplicated (questions : List Record)
    (answer_max_count answer_min_freq : ℕ) :
    (answer_indices_of questions answer_max_count answer_min_freq).Nodup
    ∧ (∀ a ∈ answer_indices_of questions answer_max_count answer_min_freq,
        answer_min_freq ≤ (countedLabels questions).count a
          ∧ a ∈ countedLabels questions)
    ∧ (answer_indices_of questions answer_max_count answer_min_freq).length
        ≤ answer_max_count
    ∧ List.Pairwise (fun a b =>
        (countedLabels questions).count b < (countedLabels questions).count a
        ∨ ((countedLabels questions).count a = (countedLabels questions).count b
            ∧ a.data < b.data))
        (answer_indices_of questions answer_max_count answer_min_freq) := by
  haveI : IsTotal (String × ℕ) keyLe := ⟨keyLe_total⟩
  haveI : IsTrans (String × ℕ) keyLe := ⟨keyLe_trans⟩
  set cl := countedLabels questions with hcl
  set counts := answerCounts questions with hcounts
  set valid := valid_answers questions answer_max_count answer_min_freq with hvalid
  set final := List.insertionSort keyLe valid with hfinal
  have hperm2 : final.Perm valid := List.perm_insertionSort keyLe valid
  have hA : answer_indices_of questions answer_max_count answer_min_freq
      = final.map Prod.fst := rfl
  -- membership of a final entry in the counter
  have hmemc : ∀ x ∈ final, x ∈ counts ∧ answer_min_freq ≤ x.2 := by
    intro x hx
    exact mem_valid_answers questions answer_max_count answer_min_freq x
      (hperm2.mem_iff.mp hx)
  -- Nodup
  have hnodup_counts_fst : (counts.map Prod.fst).Nodup := by
    rw [hcounts, answerCounts_fst]
    exact distinctFirst_nodup _
  have hperm1 : (List.insertionSort countGe counts).Perm counts :=
    List.perm_insertionSort countGe counts
  have hnodup_sorted_fst : ((List.insertionSort countGe counts).map Prod.fst).Nodup :=
    (hperm1.map Prod.fst).symm.nodup hnodup_counts_fst
  have hvalid_sub : valid.Sublist (List.insertionSort countGe counts) :=
    (List.filter_sublist _).trans (List.take_sublist _ _)
  have hnodup_valid_fst : (valid.map Prod.fst).Nodup :=
    (hvalid_sub.map Prod.fst).nodup hnodup_sorted_fst
  have hnodupA : (final.map Prod.fst).Nodup :=
    (hperm2.map Prod.fst).symm.nodup hnodup_valid_fst
  refine ⟨hA ▸ hnodupA, ?_, ?_, ?_⟩
  · intro a ha
    rw [hA] at ha
    obtain ⟨x, hx, hxa⟩ := List.mem_map.mp ha
    obtain ⟨hxc, hxf⟩ := hmemc x hx
    obtain ⟨hcount, hmem⟩ := mem_answerCounts questions x hxc
    subst hxa
    exact ⟨hcount ▸ hxf, hmem⟩
  · rw [hA, List.length_map, hperm2.length_eq, hvalid]
    calc (valid_answers questions answer_max_count answer_min_freq).length
        ≤ (mostCommon answer_max_count counts).length := List.length_filter_le _ _
      _ ≤ answer_max_count := by
          rw [mostCommon, List.length_take]
          exact min_le_left _ _
  · rw [hA]
    rw [List.pairwise_map]
    have hsorted : List.Sorted keyLe final :=
      List.sorted_insertionSort keyLe valid
    have hne : List.Pairwise (fun x y : String × ℕ => x.1 ≠ y.1) final := by
      rw [← List.pairwise_map (f := Prod.fst)]
      exact hnodupA
    refine ((hsorted.and hne).imp_of_mem ?_)
    intro x y hx hy hxy
    obtain ⟨hkey, hfst⟩ := hxy
    obtain ⟨hxcount, _⟩ := mem_answerCounts questions x (hmemc x hx).1
    obtain ⟨hycount, _⟩ := mem_answerCounts questions y (hmemc y hy).1
    rcases hkey with hlt | ⟨heq, hle⟩
    · exact Or.inl (hxcount ▸ hycount ▸ hlt)
    · refine Or.inr ⟨hxcount ▸ hycount ▸ heq, ?_⟩
      have hdne : x.1.data ≠ y.1.data := fun hd => hfst (String.ext hd)
      exact lt_of_le_of_ne hle hdne

/- Auxiliary facts for the evaluation-set filtering. -/

theorem indexOf?_isSome_of_mem (F : List String) (a : String) (ha : a ∈ F) :
    (F.indexOf? a).isSome = true := by
  cases h : F.indexOf? a with
  | some i => rfl
  | none =>
      exfalso
      have := List.indexOf?_eq_none_iff.mp h a ha
      simp at this

theorem labelIndices_isSome (F : List String) (labels : List String)
    (h : ∀ a ∈ labels, a ∈ F) : (labelIndices F labels).isSome = true := by
  induction labels with
  | nil => rfl
  | cons l rest ih =>
      have hl : (F.indexOf? l).isSome = true :=
        indexOf?_isSome_of_mem F l (h l (List.mem_cons_self l rest))
      have hrest : (labelIndices F rest).isSome = true :=
        ih (fun a ha => h a (List.mem_cons_of_mem l ha))
      rw [labelIndices]
      obtain ⟨i, hi⟩ := Option.isSome_iff_exists.mp hl
      obtain ⟨is, his⟩ := Option.isSome_iff_exists.mp hrest
      rw [hi, his]
      rfl

/-- Claim C6.  Loading the evaluation set with the frozen training answer
index excludes every record whose gold label is absent from that index from
the evaluation data entirely: the retained answers all lie in the frozen list,
the retained question/answer lists count exactly the kept records (the
accuracy denominator), appending an out-of-index record changes nothing, and
looking up every retained gold label in the frozen list succeeds, so
evaluation cannot raise on such a record. -/
theorem C6_out_of_index_gold_labels_are_excluded (records : List Record)
    (fix_answers : List String) :
    (∀ a ∈ set_data_answers records fix_answers, a ∈ fix_answers)
    ∧ (set_data_questions records fix_answers).length = records.countP (keptB fix_answers)
    ∧ (set_data_answers records fix_answers).length = records.countP (keptB fix_answers)
    ∧ (∀ r, keptB fix_answers r = false →
        set_data_questions (records ++ [r]) fix_answers
            = set_data_questions records fix_answers
        ∧ set_data_answers (records ++ [r]) fix_answers
            = set_data_answers records fix_answers)
    ∧ (labelIndices fix_answers (set_data_answers records fix_answers)).isSome = true := by
  have hmem : ∀ a ∈ set_data_answers records fix_answers, a ∈ fix_answers := by
    intro a ha
    obtain ⟨r, hr, hra⟩ := List.mem_map.mp ha
    have hk := (List.mem_filter.mp hr).2
    rw [keptB] at hk
    cases hp : r.page with
    | none => rw [hp] at hk; cases hk
    | some a2 =>
        rw [hp] at hk
        have : a2 ∈ fix_answers := of_decide_eq_true hk
        rw [hp] at hra
        simp only [Option.getD_some] at hra
        exact hra ▸ this
  refine ⟨hmem, ?_, ?_, ?_, labelIndices_isSome _ _ hmem⟩
  · rw [set_data_questions, List.length_map, ← List.countP_eq_length_filter]
  · rw [set_data_answers, List.length_map, ← List.countP_eq_length_filter]
  · intro r hr
    constructor
    · rw [set_data_questions, set_data_questions, List.filter_append]
      simp [List.filter, hr]
    · rw [set_data_answers, set_data_answers, List.filter_append]
      simp [List.filter, hr]

/- Auxiliary facts for the margin ranking loss. -/

theorem zipWith3_replicate_right {α β γ δ : Type} (f : α → β → γ → δ) (c : γ) :
    ∀ (xs : List α) (ys : List β),
      zipWith3 f xs ys (List.replicate xs.length c)
        = List.zipWith (fun a b => f a b c) xs ys
  | [], _ => by cases ‹List β› <;> rfl
  | _ :: _, [] => rfl
  | a :: as, b :: bs => by
      simp only [List.length_cons, List.replicate_succ, zipWith3, List.zipWith_cons_cons]
      rw [zipWith3_replicate_right f c as bs]

theorem zipWith_getD_lt {α β γ : Type} (f : α → β → γ) (xs : List α) (ys : List β)
    (dx : α) (dy : β) (dz : γ) (i : ℕ) (hx : i < xs.length) (hy : i < ys.length) :
    (List.zipWith f xs ys).getD i dz = f (xs.getD i dx) (ys.getD i dy) := by
  have hz : i < (List.zipWith f xs ys).length := by
    rw [List.length_zipWith]
    omega
  rw [List.getD_eq_getElem _ _ hz, List.getElem_zipWith,
    List.getD_eq_getElem _ _ hx, List.getD_eq_getElem _ _ hy]

theorem zipWith_sum_eq_range (g : ℝ → ℝ → ℝ) :
    ∀ (xs ys : List ℝ), xs.length = ys.length →
      (List.zipWith g xs ys).sum
        = ((List.range xs.length).map (fun i => g (xs.getD i 0) (ys.getD i 0))).sum
  | [], [], _ => rfl
  | [], _ :: _, h => by cases h
  | _ :: _, [], h => by cases h
  | a :: as, b :: bs, h => by
      have h2 : as.length = bs.length := by
        simpa using h
      simp only [List.zipWith_cons_cons, List.sum_cons, List.length_cons,
        List.range_succ_eq_map, List.map_cons, List.map_map]
      rw [zipWith_sum_eq_range g as bs h2]
      simp [Function.comp_def]

/-- Claim C2.  In ranking mode the batch loss is the mean over the batch of
`max(0, margin + d(anchor, positive) − d(anchor, negative))` under Euclidean
distance; it is zero as soon as every negative distance exceeds its positive
distance by at least the margin, and when the positive and negative distances
coincide and the margin is nonzero, the loss is strictly positive and equals
the margin. -/
theorem C2_margin_ranking_loss_semantics (margin : ℝ) (A P N : List (List ℝ))
    (hP : P.length = A.length) (hN : N.length = A.length) (hn : 0 < A.length) :
    (batch_step_ranking_loss margin A P N
      = ((List.range A.length).map (fun i =>
          max 0 (margin + pairwise_distance (A.getD i []) (P.getD i [])
            - pairwise_distance (A.getD i []) (N.getD i [])))).sum / A.length)
    ∧ ((∀ i < A.length,
          margin + pairwise_distance (A.getD i []) (P.getD i [])
            ≤ pairwise_distance (A.getD i []) (N.getD i [])) →
        batch_step_ranking_loss margin A P N = 0)
    ∧ ((∀ i < A.length,
          pairwise_distance (A.getD i []) (P.getD i [])
            = pairwise_distance (A.getD i []) (N.getD i [])) → 0 < margin →
        batch_step_ranking_loss margin A P N = margin) := by
  have hlp : (List.zipWith pairwise_distance A P).length = A.length := by
    rw [List.length_zipWith, hP]
    simp
  have hln : (List.zipWith pairwise_distance A N).length = A.length := by
    rw [List.length_zipWith, hN]
    simp
  have hrep : (List.replicate (List.zipWith pairwise_distance A P).length (1 : ℝ))
      = List.replicate (List.zipWith pairwise_distance A N).length (1 : ℝ) := by
    rw [hlp, hln]
  have hmain : batch_step_ranking_loss margin A P N
      = ((List.range A.length).map (fun i =>
          max 0 (margin + pairwise_distance (A.getD i []) (P.getD i [])
            - pairwise_distance (A.getD i []) (N.getD i [])))).sum / A.length := by
    rw [batch_step_ranking_loss, marginRankingLossFn, hrep,
      zipWith3_replicate_right, zipWith_sum_eq_range _ _ _ (by rw [hlp, hln]), hln]
    congr 1
    congr 1
    apply List.map_congr_left
    intro i hi
    have hiA : i < A.length := List.mem_range.mp hi
    rw [zipWith_getD_lt pairwise_distance A N [] [] 0 i hiA (hN ▸ hiA),
      zipWith_getD_lt pairwise_distance A P [] [] 0 i hiA (hP ▸ hiA)]
    congr 1
    ring
  refine ⟨hmain, ?_, ?_⟩
  · intro h
    rw [hmain]
    have hz : ((List.range A.length).map (fun i =>
        max 0 (margin + pairwise_distance (A.getD i []) (P.getD i [])
          - pairwise_distance (A.getD i []) (N.getD i [])))).sum = 0 := by
      apply List.sum_eq_zero
      intro x hx
      obtain ⟨i, hi, hix⟩ := List.mem_map.mp hx
      have hiA : i < A.length := List.mem_range.mp hi
      rw [← hix]
      apply max_eq_left
      have := h i hiA
      linarith
    rw [hz, zero_div]
  · intro h hm
    rw [hmain]
    have hz : ((List.range A.length).map (fun i =>
        max 0 (margin + pairwise_distance (A.getD i []) (P.getD i [])
          - pairwise_distance (A.getD i []) (N.getD i [])))).sum
        = (A.length : ℝ) * margin := by
      have hmem2 : ∀ x ∈ (List.range A.length).map (fun i =>
          max 0 (margin + pairwise_distance (A.getD i []) (P.getD i [])
            - pairwise_distance (A.getD i []) (N.getD i []))), x = margin := by
        intro x hx
        obtain ⟨i, hi, hix⟩ := List.mem_map.mp hx
        have hiA : i < A.length := List.mem_range.mp hi
        rw [← hix, h i hiA]
        have he : margin + pairwise_distance (A.getD i []) (N.getD i [])
            - pairwise_distance (A.getD i []) (N.getD i []) = margin := by ring
        rw [he]
        exact max_eq_right hm.le
      rw [List.eq_replicate_of_mem hmem2, List.length_map, List.length_range,
        List.sum_replicate, nsmul_eq_mul]
    rw [hz, mul_comm, mul_div_assoc, div_self (by exact_mod_cast hn.ne'), mul_one]

/-- Witness for C2: with margin 1, anchor `[0]`, positive `[0]` and negative
`[1]`, the positive distance is 0 and the negative distance is 1, the margin is
met, and the batch loss evaluates to 0. -/
theorem C2_margin_ranking_loss_semantics_witness :
    batch_step_ranking_loss 1 [[0]] [[0]] [[1]] = 0 := by
  apply (C2_margin_ranking_loss_semantics 1 [[0]] [[0]] [[1]] rfl rfl (by decide)).2.1
  intro i hi
  have hi0 : i = 0 := Nat.lt_one_iff.mp (by simpa using hi)
  subst hi0
  show 1 + pairwise_distance [0] [0] ≤ pairwise_distance [0] [1]
  have h1 : pairwise_distance [0] [0] = 0 := by
    simp [pairwise_distance]
  have h2 : pairwise_distance [0] [1] = 1 := by
    simp only [pairwise_distance, List.zipWith_cons_cons, List.zipWith_nil_right,
      List.sum_cons, List.sum_nil]
    norm_num
  rw [h1, h2]
  norm_num

/- Auxiliary facts for the evaluation loop. -/

theorem getD_map_lt {α β : Type} (f : α → β) (l : List α) (i : ℕ) (da : α) (db : β)
    (h : i < l.length) : (l.map f).getD i db = f (l.getD i da) := by
  rw [List.getD_eq_getElem _ _ (by simpa using h), List.getElem_map,
    List.getD_eq_getElem _ _ h]

theorem countP_zip_eq_range {α β : Type} (p : α → β → Bool) (da : α) (db : β) :
    ∀ (xs : List α) (ys : List β), xs.length = ys.length →
      (xs.zip ys).countP (fun q => p q.1 q.2)
        = (List.range xs.length).countP (fun i => p (xs.getD i da) (ys.getD i db))
  | [], [], _ => rfl
  | [], _ :: _, h => by cases h
  | _ :: _, [], h => by cases h
  | a :: as, b :: bs, h => by
      have h2 : as.length = bs.length := by simpa using h
      rw [List.zip_cons_cons, List.countP_cons, List.length_cons,
        List.range_succ_eq_map, List.countP_cons, List.countP_map]
      rw [countP_zip_eq_range p da db as bs h2]
      rfl

theorem labelIndices_eq_map (F : List String) :
    ∀ (labels : List String), (∀ l ∈ labels, l ∈ F) →
      labelIndices F labels = some (labels.map (fun l => (F.indexOf? l).getD 0))
  | [], _ => rfl
  | l :: rest, h => by
      obtain ⟨i, hi⟩ := Option.isSome_iff_exists.mp
        (indexOf?_isSome_of_mem F l (h l (List.mem_cons_self l rest)))
      rw [labelIndices, hi,
        labelIndices_eq_map F rest (fun a ha => h a (List.mem_cons_of_mem l ha))]
      simp [hi]

theorem number_errors_ce (model : Model) (td : QuestionData)
    (rows : List (List ℕ)) (lens : List ℕ) (labels : List String)
    (hc : model.criterion = Criterion.crossEntropyLoss)
    (hl1 : rows.length = lens.length) (hl2 : rows.length = labels.length)
    (hmem : ∀ l ∈ labels, l ∈ td.answer_indices) :
    number_errors rows lens labels td model
      = Except.ok ((List.range rows.length).countP (fun i =>
          argmaxIdx (forwardRow model (rows.getD i []) (lens.getD i 0))
            != (td.answer_indices.indexOf? (labels.getD i "")).getD 0)) := by
  have hfb : (forwardBatch model rows lens).length = rows.length := by
    rw [forwardBatch, List.length_zipWith, hl1]
    simp
  have hstep : number_errors rows lens labels td model
      = Except.ok ((((forwardBatch model rows lens).map argmaxIdx).zip
          (labels.map (fun l => (td.answer_indices.indexOf? l).getD 0))).countP
            (fun pl => pl.1 != pl.2)) := by
    simp only [number_errors, hc]
    rw [labelIndices_eq_map td.answer_indices labels hmem]
  rw [hstep]
  have hzl : ((forwardBatch model rows lens).map argmaxIdx).length
      = (labels.map (fun l => (td.answer_indices.indexOf? l).getD 0)).length := by
    rw [List.length_map, List.length_map, hfb, hl2]
  rw [countP_zip_eq_range (fun a b => a != b) 0 0 _ _ hzl, List.length_map, hfb]
  refine congrArg Except.ok ?_
  apply List.countP_congr
  intro i hi
  have hiA : i < rows.length := List.mem_range.mp hi
  have he : ((forwardBatch model rows lens).map argmaxIdx).getD i 0
      = argmaxIdx (forwardRow model (rows.getD i []) (lens.getD i 0)) := by
    rw [getD_map_lt argmaxIdx _ i [] 0 (hfb ▸ hiA), forwardBatch,
      zipWith_getD_lt (forwardRow model) rows lens [] 0 [] i hiA (hl1 ▸ hiA)]
  have he2 : (labels.map (fun l => (td.answer_indices.indexOf? l).getD 0)).getD i 0
      = (td.answer_indices.indexOf? (labels.getD i "")).getD 0 :=
    getD_map_lt _ _ i "" 0 (hl2 ▸ hiA)
  rw [he, he2]

theorem number_errors_mr (model : Model) (td : QuestionData) (store : List Vec)
    (rows : List (List ℕ)) (lens : List ℕ) (labels : List String)
    (hc : model.criterion = Criterion.marginRankingLoss)
    (hl1 : rows.length = lens.length) (hl2 : rows.length = labels.length)
    (hlk : td.lookup = some store) :
    number_errors rows lens labels td model
      = Except.ok ((List.range rows.length).countP (fun i =>
          td.answers.getD (argminIdx (store.map (fun row =>
            sqDist row (forwardRow model (rows.getD i []) (lens.getD i 0))))) ""
            != labels.getD i "")) := by
  have hfb : (forwardBatch model rows lens).length = rows.length := by
    rw [forwardBatch, List.length_zipWith, hl1]
    simp
  have hgb : get_batch_nearest td (forwardBatch model rows lens) 1
      = Except.ok ((forwardBatch model rows lens).map (fun r =>
          td.answers.getD (argminIdx (store.map (fun row => sqDist row r))) "")) := by
    simp only [get_batch_nearest, hlk]
  have hstep : number_errors rows lens labels td model
      = Except.ok ((((forwardBatch model rows lens).map (fun r =>
          td.answers.getD (argminIdx (store.map (fun row => sqDist row r))) "")).zip
            labels).countP (fun pl => pl.1 != pl.2)) := by
    simp only [number_errors, hc]
    rw [hgb]
    rfl
  rw [hstep]
  have hzl : ((forwardBatch model rows lens).map (fun r =>
      td.answers.getD (argminIdx (store.map (fun row => sqDist row r))) "")).length
      = labels.length := by
    rw [List.length_map, hfb, hl2]
  rw [countP_zip_eq_range (fun a b => a != b) "" "" _ _ hzl, List.length_map, hfb]
  refine congrArg Except.ok ?_
  apply List.countP_congr
  intro i hi
  have hiA : i < rows.length := List.mem_range.mp hi
  have he : ((forwardBatch model rows lens).map (fun r =>
      td.answers.getD (argminIdx (store.map (fun row => sqDist row r))) "")).getD i ""
      = td.answers.getD (argminIdx (store.map (fun row =>
          sqDist row (forwardRow model (rows.getD i []) (lens.getD i 0))))) "" := by
    rw [getD_map_lt _ _ i [] "" (hfb ▸ hiA), forwardBatch,
      zipWith_getD_lt (forwardRow model) rows lens [] 0 [] i hiA (hl1 ▸ hiA)]
  rw [he]

theorem evalLoop_ok (model : Model) (td : QuestionData) (E : Batch → ℕ) :
    ∀ (batches : List Batch),
      (∀ b ∈ batches, number_errors b.question_text b.question_len b.answers td model
        = Except.ok (E b)) →
      ∀ e0 n0, evalLoop model td batches e0 n0
        = Except.ok (e0 + (batches.map E).sum,
            n0 + (batches.map (fun b => b.question_text.length)).sum)
  | [], _, e0, n0 => by simp [evalLoop]
  | b :: rest, h, e0, n0 => by
      have hb := h b (List.mem_cons_self b rest)
      have hrest := evalLoop_ok model td E rest
        (fun b2 hb2 => h b2 (List.mem_cons_of_mem b hb2))
        (e0 + E b) (n0 + b.question_text.length)
      have hstep : evalLoop model td (b :: rest) e0 n0
          = evalLoop model td rest (e0 + E b) (n0 + b.question_text.length) := by
        simp only [evalLoop]
        rw [hb]
        rfl
      rw [hstep, hrest]
      simp [List.sum_cons, add_assoc]

/-- Claim C8.  For every dataset whose batches are well formed (parallel rows,
lengths and labels; in classification mode every gold label occurs in the
frozen answer list; in ranking mode the index has been refreshed), `evaluate`
returns exactly `1 − errors / total_examples`, where an error is, per example,
an arg-max-logit mismatch with the gold label's index (classification) or a
mismatch between the nearest stored representation's label and the gold label
(ranking); on an empty dataset the division by zero is a fatal error, never a
silently returned default. -/
theorem C8_evaluate_one_minus_error_rate (batches : List Batch) (model : Model)
    (td : QuestionData)
    (hce : model.criterion = Criterion.crossEntropyLoss →
      ∀ b ∈ batches, ∀ l ∈ b.answers, l ∈ td.answer_indices)
    (hmr : model.criterion = Criterion.marginRankingLoss → td.lookup.isSome = true)
    (hlen : ∀ b ∈ batches, b.question_text.length = b.question_len.length
      ∧ b.question_text.length = b.answers.length) :
    ((batches.map (fun b => b.question_text.length)).sum ≠ 0 →
      evaluate batches model td
        = Except.ok (1 -
            (((batches.map (fun b => (List.range b.question_text.length).countP (fun i =>
              match model.criterion with
              | Criterion.crossEntropyLoss =>
                  argmaxIdx (forwardRow model (b.question_text.getD i [])
                      (b.question_len.getD i 0))
                    != (td.answer_indices.indexOf? (b.answers.getD i "")).getD 0
              | Criterion.marginRankingLoss =>
                  td.answers.getD (argminIdx ((td.lookup.getD []).map (fun row =>
                    sqDist row (forwardRow model (b.question_text.getD i [])
                      (b.question_len.getD i 0))))) ""
                    != b.answers.getD i ""))).sum : ℕ) : ℚ)
            / (((batches.map (fun b => b.question_text.length)).sum : ℕ) : ℚ)))
    ∧ ((batches.map (fun b => b.question_text.length)).sum = 0 →
      evaluate batches model td = Except.error "ZeroDivisionError: division by zero") := by
  set E : Batch → ℕ := fun b => (List.range b.question_text.length).countP (fun i =>
    match model.criterion with
    | Criterion.crossEntropyLoss =>
        argmaxIdx (forwardRow model (b.question_text.getD i [])
            (b.question_len.getD i 0))
          != (td.answer_indices.indexOf? (b.answers.getD i "")).getD 0
    | Criterion.marginRankingLoss =>
        td.answers.getD (argminIdx ((td.lookup.getD []).map (fun row =>
          sqDist row (forwardRow model (b.question_text.getD i [])
            (b.question_len.getD i 0))))) ""
          != b.answers.getD i "") with hE
  have hall : ∀ b ∈ batches,
      number_errors b.question_text b.question_len b.answers td model
        = Except.ok (E b) := by
    intro b hb
    obtain ⟨hb1, hb2⟩ := hlen b hb
    cases hc : model.criterion with
    | crossEntropyLoss =>
        rw [number_errors_ce model td _ _ _ hc hb1 hb2 (hce hc b hb), hE]
        simp only [hc]
    | marginRankingLoss =>
        obtain ⟨store, hstore⟩ := Option.isSome_iff_exists.mp (hmr hc)
        rw [number_errors_mr model td store _ _ _ hc hb1 hb2 hstore, hE]
        simp only [hc, hstore, Option.getD_some]
  have hloop := evalLoop_ok model td E batches hall 0 0
  rw [Nat.zero_add, Nat.zero_add] at hloop
  have heval : evaluate batches model td
      = (if (batches.map (fun b => b.question_text.length)).sum = 0 then
          Except.error "ZeroDivisionError: division by zero"
        else Except.ok (1 - (((batches.map E).sum : ℕ) : ℚ)
          / (((batches.map (fun b => b.question_text.length)).sum : ℕ) : ℚ))) := by
    simp only [evaluate]
    rw [hloop]
    rfl
  constructor
  · intro hN
    rw [heval, if_neg hN]
    norm_num
  · intro hN
    rw [heval, if_pos hN]

/-- Witness for C8 at a concrete one-example classification dataset: the
hypotheses hold by computation and `evaluate` returns exactly one minus the
error count over the example count. -/
theorem C8_evaluate_one_minus_error_rate_witness :
    evaluate
        [{ question_text := [[1]], question_len := [1], answers := ["a"] }]
        { criterion := Criterion.crossEntropyLoss, vocab_size := 2, emb_dim := 1,
          n_hidden_units := 1, nn_dropout := 0, num_answers := 2,
          embeddings := [[0], [1]], linear1_w := [[1]], linear1_b := [0],
          linear2_w := [[1], [-1]], linear2_b := [0, 0] }
        { dimension := 1, use_contrastive_examples := false,
          vocab := { tokens := ["<unk>"], default_index := some 0 },
          answer_indices := ["a", "b"], questions := [], answers := [],
          representations := [], lookup := none }
      = Except.ok (1 -
          (([{ question_text := [[1]], question_len := [1], answers := ["a"] }].map
              (fun b : Batch =>
                (List.range b.question_text.length).countP (fun i =>
                  argmaxIdx (forwardRow
                      { criterion := Criterion.crossEntropyLoss, vocab_size := 2,
                        emb_dim := 1, n_hidden_units := 1, nn_dropout := 0,
                        num_answers := 2, embeddings := [[0], [1]],
                        linear1_w := [[1]], linear1_b := [0],
                        linear2_w := [[1], [-1]], linear2_b := [0, 0] }
                      (b.question_text.getD i []) (b.question_len.getD i 0))
                    != ((["a", "b"] : List String).indexOf?
                        (b.answers.getD i "")).getD 0))).sum : ℚ)
          / (([{ question_text := [[1]], question_len := [1], answers := ["a"] }].map
              (fun b : Batch => b.question_text.length)).sum : ℚ)) :=
  (C8_evaluate_one_minus_error_rate
    [{ question_text := [[1]], question_len := [1], answers := ["a"] }]
    { criterion := Criterion.crossEntropyLoss, vocab_size := 2, emb_dim := 1,
      n_hidden_units := 1, nn_dropout := 0, num_answers := 2,
      embeddings := [[0], [1]], linear1_w := [[1]], linear1_b := [0],
      linear2_w := [[1], [-1]], linear2_b := [0, 0] }
    { dimension := 1, use_contrastive_examples := false,
      vocab := { tokens := ["<unk>"], default_index := some 0 },
      answer_indices := ["a", "b"], questions := [], answers := [],
      representations := [], lookup := none }
    (by decide) (by decide) (by decide)).1 (by decide)

/-- Claim C9.  For a trained guesser whose nearest-neighbour index is in sync
with its representation store (which `refresh_index` guarantees at save time)
and a fresh instance built from the same parameters, `save()` followed by
`load()` reproduces the original's predict output on every probe question, in
both classification and ranking modes. -/
theorem C9_save_load_roundtrip_predict (g : Guesser) (pcrit : Criterion)
    (tokens : List String) (n : ℕ)
    (hmode : g.training_data.use_contrastive_examples
      = decide (pcrit ≠ Criterion.crossEntropyLoss))
    (hsync : g.training_data.use_contrastive_examples = true →
      g.training_data.lookup = some g.training_data.representations) :
    dan_call (load pcrit (save g)) tokens n = dan_call g tokens n := by
  by_cases hb : g.training_data.use_contrastive_examples = true
  · have hflag : (decide (pcrit ≠ Criterion.crossEntropyLoss)) = true :=
      hmode.symm.trans hb
    have hl := hsync hb
    simp only [dan_call, load, save, refresh_index, initQuestionData, hb, hflag,
      if_true, get_nearest, hl]
  · have hb2 : g.training_data.use_contrastive_examples = false :=
      Bool.eq_false_iff.mpr hb
    have hflag : (decide (pcrit ≠ Criterion.crossEntropyLoss)) = false :=
      hmode.symm.trans hb2
    simp only [dan_call, load, save, refresh_index, initQuestionData, hb2, hflag,
      Bool.false_eq_true, if_false]

/-- Witness for C9: a concrete classification-mode guesser predicts the same
labels before and after the save/load round trip. -/
theorem C9_save_load_roundtrip_predict_witness :
    dan_call
        (load Criterion.crossEntropyLoss (save
          { model :=
              { criterion := Criterion.crossEntropyLoss, vocab_size := 2,
                emb_dim := 1, n_hidden_units := 1, nn_dropout := 0, num_answers := 2,
                embeddings := [[0], [1]], linear1_w := [[1]], linear1_b := [0],
                linear2_w := [[1], [-1]], linear2_b := [0, 0] },
            training_data :=
              { dimension := 1, use_contrastive_examples := false,
                vocab := { tokens := ["<unk>", "w"], default_index := some 0 },
                answer_indices := ["a", "b"], questions := [], answers := [],
                representations := [], lookup := none } }))
        ["w"] 1
      = dan_call
          { model :=
              { criterion := Criterion.crossEntropyLoss, vocab_size := 2,
                emb_dim := 1, n_hidden_units := 1, nn_dropout := 0, num_answers := 2,
                embeddings := [[0], [1]], linear1_w := [[1]], linear1_b := [0],
                linear2_w := [[1], [-1]], linear2_b := [0, 0] },
            training_data :=
              { dimension := 1, use_contrastive_examples := false,
                vocab := { tokens := ["<unk>", "w"], default_index := some 0 },
                answer_indices := ["a", "b"], questions := [], answers := [],
                representations := [], lookup := none } }
          ["w"] 1 :=
  C9_save_load_roundtrip_predict
    { model :=
        { criterion := Criterion.crossEntropyLoss, vocab_size := 2,
          emb_dim := 1, n_hidden_units := 1, nn_dropout := 0, num_answers := 2,
          embeddings := [[0], [1]], linear1_w := [[1]], linear1_b := [0],
          linear2_w := [[1], [-1]], linear2_b := [0, 0] },
      training_data :=
        { dimension := 1, use_contrastive_examples := false,
          vocab := { tokens := ["<unk>", "w"], default_index := some 0 },
          answer_indices := ["a", "b"], questions := [], answers := [],
          representations := [], lookup := none } }
    Criterion.crossEntropyLoss ["w"] 1 (by decide) (by decide)

end Dan
